import Mathlib

/-!
# Shallow embedding of the vortex broadcast node (`src/bin/broadcast.rs`)

This file embeds the gossip broadcast engine of the repository into Lean:
the node state (`BroadcastNode`), the wire payloads (`Payload`), and the
message handler (`handle_message`), translated arm by arm from the Rust
source.  Container choices:

* `HashSet<usize>`  (the Value Set)            ↦ `Finset Nat`
* `HashMap<usize, UnAckedMessage>` (Retry Buffer) ↦ association list
  `List (Nat × UnAckedMessage)` with overwrite-on-insert and
  filter-on-remove, mirroring `HashMap::insert` / `HashMap::remove`;
  iteration order of a `HashMap` is unspecified in Rust, the list fixes
  one concrete enumeration of it.
* `HashMap<String, Vec<String>>` (a topology)  ↦ association list
  `List (String × List String)` with first-match lookup.
* `HashSet::iter().collect::<Vec<_>>()` in the `Read` arm yields the set
  in an unspecified order; the embedding enumerates it in ascending
  order (`Finset.sort`), one concrete choice of that order.
-/

namespace Vortex

/-- Rust `struct UnAckedMessage { node: String, message: usize }`:
one gossip send to `node` carrying `message`, not yet acknowledged. -/
structure UnAckedMessage where
  node : String
  message : Nat
deriving DecidableEq, Repr

/-- Rust `enum Payload` of `broadcast.rs`, one constructor per wire tag. -/
inductive Payload where
  | Broadcast (msg_id : Nat) (message : Nat)
  | BroadcastOk (msg_id : Nat) (in_reply_to : Nat)
  | Read (msg_id : Nat)
  | ReadOk (msg_id : Nat) (in_reply_to : Nat) (messages : List Nat)
  | Topology (msg_id : Nat) (topology : List (String × List String))
  | TopologyOk (msg_id : Nat) (in_reply_to : Nat)
  | ResendUnAcked
deriving DecidableEq, Repr

/-- Rust `vortex::Message` specialised to the broadcast payload. -/
structure Message where
  src : String
  dest : String
  body : Payload
deriving DecidableEq, Repr

/-- Rust `struct BroadcastNode`. -/
structure BroadcastNode where
  id : String
  msg_id_counter : Nat
  messages : Finset Nat
  neighbors : List String
  message_buffer : List (Nat × UnAckedMessage)
deriving DecidableEq

/-- `Self::update_msg_id(&mut self.msg_id_counter)`: increment the counter. -/
def update_msg_id (c : Nat) : Nat := c + 1

/-- `HashMap::insert` on the Retry Buffer: overwrite any entry with the
same key, append the new binding. -/
def bufInsert (buf : List (Nat × UnAckedMessage)) (k : Nat) (v : UnAckedMessage) :
    List (Nat × UnAckedMessage) :=
  buf.filter (fun p => p.1 != k) ++ [(k, v)]

/-- `HashMap::remove` on the Retry Buffer: drop the entry with key `k`. -/
def bufRemove (buf : List (Nat × UnAckedMessage)) (k : Nat) :
    List (Nat × UnAckedMessage) :=
  buf.filter (fun p => p.1 != k)

/-- `HashMap::get` on a topology map: first binding of the key, if any. -/
def topoLookup (t : List (String × List String)) (k : String) :
    Option (List String) :=
  (t.find? (fun p => p.1 == k)).map (fun p => p.2)

/-- One step of the flood loop in the `Broadcast` arm: for one neighbor
`n` (already past the `filter`), increment the counter, record the new
`UnAckedMessage` in the buffer under the fresh id, and queue the gossip
message `{src: self.id, dest: n, Broadcast{msg_id, message}}`.
The accumulator is (counter, buffer, emitted messages so far). -/
def floodStep (id : String) (message : Nat)
    (acc : Nat × List (Nat × UnAckedMessage) × List Message) (n : String) :
    Nat × List (Nat × UnAckedMessage) × List Message :=
  let c := update_msg_id acc.1
  (c, bufInsert acc.2.1 c ⟨n, message⟩,
   acc.2.2 ++ [⟨id, n, .Broadcast c message⟩])

/-- One step of the `ResendUnAcked` loop: for one buffered
`UnAckedMessage`, increment the counter, record the entry again under the
fresh id in the next-generation buffer, and queue the resend message. -/
def resendStep (id : String)
    (acc : Nat × List (Nat × UnAckedMessage) × List Message)
    (p : Nat × UnAckedMessage) :
    Nat × List (Nat × UnAckedMessage) × List Message :=
  let c := update_msg_id acc.1
  (c, bufInsert acc.2.1 c ⟨p.2.node, p.2.message⟩,
   acc.2.2 ++ [⟨id, p.2.node, .Broadcast c p.2.message⟩])

/-- `BroadcastNode::handle_message`, translated arm by arm from
`src/bin/broadcast.rs`.  Writes to the transport become the returned
list of messages, in emission order. -/
def handle_message (s : BroadcastNode) (msg : Message) :
    BroadcastNode × List Message :=
  match msg.body with
  | .Broadcast msg_id message =>
      let flood :=
        if message ∈ s.messages then
          (s.msg_id_counter, s.message_buffer, ([] : List Message))
        else
          (s.neighbors.filter (fun n => n != msg.src && n != msg.dest)).foldl
            (floodStep s.id message) (s.msg_id_counter, s.message_buffer, [])
      let c := update_msg_id flood.1
      (⟨s.id, c, insert message s.messages, s.neighbors, flood.2.1⟩,
       flood.2.2 ++ [⟨msg.dest, msg.src, .BroadcastOk c msg_id⟩])
  | .BroadcastOk _ in_reply_to =>
      (⟨s.id, s.msg_id_counter, s.messages, s.neighbors,
        bufRemove s.message_buffer in_reply_to⟩, [])
  | .Read msg_id =>
      let c := update_msg_id s.msg_id_counter
      (⟨s.id, c, s.messages, s.neighbors, s.message_buffer⟩,
       [⟨msg.dest, msg.src, .ReadOk c msg_id (s.messages.sort (· ≤ ·))⟩])
  | .ReadOk _ _ _ => (s, [])
  | .Topology msg_id topology =>
      let c := update_msg_id s.msg_id_counter
      (⟨s.id, c, s.messages, (topoLookup topology s.id).getD [], s.message_buffer⟩,
       [⟨msg.dest, msg.src, .TopologyOk c msg_id⟩])
  | .TopologyOk _ _ => (s, [])
  | .ResendUnAcked =>
      let gen := s.message_buffer.foldl (resendStep s.id)
        (s.msg_id_counter, [], [])
      (⟨s.id, gen.1, s.messages, s.neighbors, gen.2.1⟩, gen.2.2)

/-- The node state `main` builds right after `vortex::init()`. -/
def initNode (id : String) : BroadcastNode :=
  ⟨id, 0, ∅, [], []⟩

/-- Apply a sequence of inbound messages, discarding outputs. -/
def run (s : BroadcastNode) : List Message → BroadcastNode
  | [] => s
  | m :: ms => run (handle_message s m).1 ms

/-- Apply a sequence of inbound messages, concatenating all outputs. -/
def runOut (s : BroadcastNode) : List Message → BroadcastNode × List Message
  | [] => (s, [])
  | m :: ms =>
      let step := handle_message s m
      let rest := runOut step.1 ms
      (rest.1, step.2 ++ rest.2)

/-- Is this payload a gossip (`Broadcast`) message? -/
def isGossip : Payload → Prop
  | .Broadcast _ _ => True
  | _ => False

instance : DecidablePred isGossip := fun p => by
  cases p <;> simp [isGossip] <;> infer_instance

/-- Is this payload a `BroadcastOk` acknowledgement? -/
def isBroadcastOk : Payload → Prop
  | .BroadcastOk _ _ => True
  | _ => False

instance : DecidablePred isBroadcastOk := fun p => by
  cases p <;> simp [isBroadcastOk] <;> infer_instance

/-- Is this payload one of the request/response replies the node emits
(`BroadcastOk`, `ReadOk`, `TopologyOk`)? -/
def isReply : Payload → Prop
  | .BroadcastOk _ _ => True
  | .ReadOk _ _ _ => True
  | .TopologyOk _ _ => True
  | _ => False

/-- The destination of a message when it is a gossip (`Broadcast`)
message, `none` otherwise: `outs.filterMap gossipDest` lists the
destinations of the gossip messages among `outs`, in order. -/
def gossipDest : Message → Option String
  | ⟨_, d, .Broadcast _ _⟩ => some d
  | _ => none

/-- The `msg_id` the node stamped on an outbound payload, when it has one. -/
def msgIdOf : Payload → Option Nat
  | .Broadcast msg_id _ => some msg_id
  | .BroadcastOk msg_id _ => some msg_id
  | .Read msg_id => some msg_id
  | .ReadOk msg_id _ _ => some msg_id
  | .Topology msg_id _ => some msg_id
  | .TopologyOk msg_id _ => some msg_id
  | .ResendUnAcked => none

/-- The `in_reply_to` correlation id carried by a payload, when it has one. -/
def inReplyTo : Payload → Option Nat
  | .BroadcastOk _ r => some r
  | .ReadOk _ r _ => some r
  | .TopologyOk _ r => some r
  | _ => none

/-- At most one Retry Buffer entry per (neighbor, value) pair. -/
def atMostOnePerPair (buf : List (Nat × UnAckedMessage)) : Prop :=
  (buf.map Prod.snd).Nodup

instance (buf : List (Nat × UnAckedMessage)) : Decidable (atMostOnePerPair buf) := by
  unfold atMostOnePerPair; infer_instance

/-! ## Characterisation of the two emission loops

Both the flood loop of the `Broadcast` arm and the `ResendUnAcked` loop
send one gossip message per pending item and record it under a freshly
incremented id.  `genEntries c us` / `genMsgs id c us` describe the
buffer entries and the messages such a loop produces when it starts from
counter value `c` and processes the items `us` in order. -/

/-- Buffer entries produced by an emission loop: item `us[i]` is recorded
under key `c + i + 1`. -/
def genEntries (c : Nat) : List UnAckedMessage → List (Nat × UnAckedMessage)
  | [] => []
  | u :: us => (c + 1, u) :: genEntries (c + 1) us

/-- Messages produced by an emission loop: item `us[i]` becomes a gossip
message from `id` to `us[i].node` carrying `us[i].message`, id `c + i + 1`. -/
def genMsgs (id : String) (c : Nat) : List UnAckedMessage → List Message
  | [] => []
  | u :: us => ⟨id, u.node, .Broadcast (c + 1) u.message⟩ :: genMsgs id (c + 1) us

/-- The inbound message, when it is a `Topology` assignment, gives this
node a duplicate-free neighbor list; all other message kinds qualify
trivially. -/
def goodTopo (id : String) (m : Message) : Prop :=
  match m.body with
  | .Topology _ topo => ((topoLookup topo id).getD []).Nodup
  | _ => True

instance (id : String) (m : Message) : Decidable (goodTopo id m) :=
  match m with
  | ⟨_, _, .Broadcast _ _⟩ => isTrue trivial
  | ⟨_, _, .BroadcastOk _ _⟩ => isTrue trivial
  | ⟨_, _, .Read _⟩ => isTrue trivial
  | ⟨_, _, .ReadOk _ _ _⟩ => isTrue trivial
  | ⟨_, _, .Topology _ topo⟩ => List.nodupDecidable ((topoLookup topo id).getD [])
  | ⟨_, _, .TopologyOk _ _⟩ => isTrue trivial
  | ⟨_, _, .ResendUnAcked⟩ => isTrue trivial

/-- State invariant maintained by the handler: duplicate-free neighbor
list, buffer keys bounded by the counter and pairwise distinct, buffer
values already in the Value Set, and at most one buffer entry per
(neighbor, value) pair. -/
structure Inv (s : BroadcastNode) : Prop where
  nbrs_nodup : s.neighbors.Nodup
  keys_le : ∀ p ∈ s.message_buffer, p.1 ≤ s.msg_id_counter
  keys_nodup : (s.message_buffer.map Prod.fst).Nodup
  vals_seen : ∀ p ∈ s.message_buffer, p.2.message ∈ s.messages
  pairs_nodup : atMostOnePerPair s.message_buffer

/-! ## The shutdown wiring of `main` (claim C9)

`main` wires cooperative shutdown as follows: the receive loop
(`for message in message_rx`) ends only when every sender on the message
channel has been dropped; the resend-timer thread holds one such sender
(`resend_tx`) and releases it only after its loop breaks, which requires
it to receive the terminate signal (or, along the panic path of a failed
send, requires the receiver — dropped by `main` only after the loop — to
be gone already); and `main` sends the terminate signal only *after* the
receive loop has ended.  `ShutdownTrace` records at what time (if ever)
each of these four events happens in an execution that begins with
normal transport closure (stdin EOF), and `MainShutdown` states those
causal constraints, read off the source of `main`. -/

/-- Event times (if the event ever occurs) in one execution of `main`
after stdin reaches EOF. -/
structure ShutdownTrace where
  /-- The receive loop over `message_rx` terminates normally. -/
  mainLoopExit : Option Nat
  /-- The resend-timer thread releases its clone of the message sender. -/
  resendSenderDrop : Option Nat
  /-- `main` sends the terminate signal on `terminate_resend_tx`. -/
  terminateSend : Option Nat
  /-- The resend-timer thread receives the terminate signal. -/
  terminateRecv : Option Nat

/-- The causal constraints `main` imposes on those events. -/
structure MainShutdown (t : ShutdownTrace) : Prop where
  /-- The receive loop ends only once every sender, in particular the
  resend thread's clone, has been dropped. -/
  exit_requires_drop : ∀ te, t.mainLoopExit = some te →
    ∃ td, t.resendSenderDrop = some td ∧ td ≤ te
  /-- The resend thread drops its sender only after receiving the
  terminate signal, or — on the panic path of a failed send — only after
  `main` has already finished its receive loop and dropped the
  receiver. -/
  drop_requires_recv_or_exit : ∀ td, t.resendSenderDrop = some td →
    (∃ tr, t.terminateRecv = some tr ∧ tr ≤ td) ∨
    (∃ te, t.mainLoopExit = some te ∧ te < td)
  /-- A signal is received only after it was sent. -/
  recv_requires_send : ∀ tr, t.terminateRecv = some tr →
    ∃ ts, t.terminateSend = some ts ∧ ts ≤ tr
  /-- `main` sends the terminate signal strictly after its receive loop
  has ended: the send is a later statement of `main`. -/
  send_after_exit : ∀ ts, t.terminateSend = some ts →
    ∃ te, t.mainLoopExit = some te ∧ te < ts

/-- A small concrete node state, used to instantiate the theorems below
at an explicit input: id `"A"`, counter `10`, Value Set `{7}`, neighbors
`["B", "C"]`, and one pending gossip entry `(4 ↦ ("B", 7))`. -/
def nodeA : BroadcastNode := ⟨"A", 10, {7}, ["B", "C"], [(4, ⟨"B", 7⟩)]⟩

theorem genEntries_map_snd (c : Nat) (us : List UnAckedMessage) :
    (genEntries c us).map Prod.snd = us := by
  induction us generalizing c with
  | nil => rfl
  | cons u us ih => simp [genEntries, ih]

theorem genEntries_map_fst (c : Nat) (us : List UnAckedMessage) :
    (genEntries c us).map Prod.fst = List.range' (c + 1) us.length := by
  induction us generalizing c with
  | nil => rfl
  | cons u us ih => simp [genEntries, ih, List.range'_succ]

theorem genEntries_length (c : Nat) (us : List UnAckedMessage) :
    (genEntries c us).length = us.length := by
  induction us generalizing c with
  | nil => rfl
  | cons u us ih => simp [genEntries, ih]

theorem genMsgs_length (id : String) (c : Nat) (us : List UnAckedMessage) :
    (genMsgs id c us).length = us.length := by
  induction us generalizing c with
  | nil => rfl
  | cons u us ih => simp [genMsgs, ih]

theorem mem_genEntries {c : Nat} {us : List UnAckedMessage}
    {p : Nat × UnAckedMessage} (hp : p ∈ genEntries c us) :
    c < p.1 ∧ p.1 ≤ c + us.length ∧ p.2 ∈ us := by
  induction us generalizing c with
  | nil => simp [genEntries] at hp
  | cons u us ih =>
      simp only [genEntries, List.mem_cons] at hp
      rcases hp with h | h
      · subst h; simp
      · obtain ⟨h1, h2, h3⟩ := ih h
        exact ⟨by omega, by simp; omega, List.mem_cons_of_mem _ h3⟩

theorem mem_genMsgs {id : String} {c : Nat} {us : List UnAckedMessage}
    {m : Message} (hm : m ∈ genMsgs id c us) :
    ∃ k u, u ∈ us ∧ c < k ∧ m = ⟨id, u.node, .Broadcast k u.message⟩ := by
  induction us generalizing c with
  | nil => simp [genMsgs] at hm
  | cons u us ih =>
      simp only [genMsgs, List.mem_cons] at hm
      rcases hm with h | h
      · exact ⟨c + 1, u, List.mem_cons_self _ _, Nat.lt_succ_self c, h⟩
      · obtain ⟨k, u', hu', hk, hmeq⟩ := ih h
        exact ⟨k, u', List.mem_cons_of_mem _ hu', by omega, hmeq⟩

theorem genMsgs_map_msgId (id : String) (c : Nat) (us : List UnAckedMessage) :
    (genMsgs id c us).map (fun o => msgIdOf o.body) =
      (List.range' (c + 1) us.length).map some := by
  induction us generalizing c with
  | nil => rfl
  | cons u us ih =>
      simp only [genMsgs, List.map_cons, List.length_cons, List.range'_succ, ih]
      rfl

theorem genMsgs_map_dest (id : String) (c : Nat) (us : List UnAckedMessage) :
    (genMsgs id c us).map Message.dest = us.map UnAckedMessage.node := by
  induction us generalizing c with
  | nil => rfl
  | cons u us ih => simp [genMsgs, ih]

/-- Inserting under a key strictly larger than every key in the buffer
is a plain append: the `HashMap::insert` overwrite never fires. -/
theorem bufInsert_of_keys_le {buf : List (Nat × UnAckedMessage)} {c k : Nat}
    (h : ∀ p ∈ buf, p.1 ≤ c) (hk : c < k) (v : UnAckedMessage) :
    bufInsert buf k v = buf ++ [(k, v)] := by
  unfold bufInsert
  congr 1
  apply List.filter_eq_self.2
  intro p hp
  have := h p hp
  simp only [bne_iff_ne, ne_eq, decide_eq_true_eq]
  omega

/-- The flood loop of the `Broadcast` arm, characterised: counter and
emitted messages do not depend on the starting buffer. -/
theorem flood_foldl_counter_outs (id : String) (v : Nat) (l : List String)
    (c : Nat) (buf : List (Nat × UnAckedMessage)) (outs : List Message) :
    (l.foldl (floodStep id v) (c, buf, outs)).1 = c + l.length ∧
    (l.foldl (floodStep id v) (c, buf, outs)).2.2 =
      outs ++ genMsgs id c (l.map (fun n => ⟨n, v⟩)) := by
  induction l generalizing c buf outs with
  | nil => simp [genMsgs]
  | cons n ns ih =>
      simp only [List.foldl_cons, floodStep, update_msg_id, List.map_cons, genMsgs]
      obtain ⟨h1, h2⟩ := ih (c + 1) (bufInsert buf (c + 1) ⟨n, v⟩)
        (outs ++ [⟨id, n, .Broadcast (c + 1) v⟩])
      constructor
      · rw [h1]; simp; omega
      · rw [h2]; simp

/-- The flood loop of the `Broadcast` arm, buffer component: when every
existing key is at most the starting counter, the new entries are
appended behind the old ones. -/
theorem flood_foldl_buf (id : String) (v : Nat) (l : List String)
    (c : Nat) (buf : List (Nat × UnAckedMessage)) (outs : List Message)
    (h : ∀ p ∈ buf, p.1 ≤ c) :
    (l.foldl (floodStep id v) (c, buf, outs)).2.1 =
      buf ++ genEntries c (l.map (fun n => ⟨n, v⟩)) := by
  induction l generalizing c buf outs with
  | nil => simp [genEntries]
  | cons n ns ih =>
      simp only [List.foldl_cons, floodStep, update_msg_id, List.map_cons, genEntries]
      rw [bufInsert_of_keys_le h (Nat.lt_succ_self c)]
      rw [ih (c + 1) _ _ (by
        intro p hp
        rcases List.mem_append.1 hp with h' | h'
        · exact Nat.le_succ_of_le (h p h')
        · have hp' : p = (c + 1, ⟨n, v⟩) := List.mem_singleton.1 h'
          simp [hp'])]
      simp [genEntries]

/-- The `ResendUnAcked` loop, counter and emitted messages. -/
theorem resend_foldl_counter_outs (id : String) (l : List (Nat × UnAckedMessage))
    (c : Nat) (buf : List (Nat × UnAckedMessage)) (outs : List Message) :
    (l.foldl (resendStep id) (c, buf, outs)).1 = c + l.length ∧
    (l.foldl (resendStep id) (c, buf, outs)).2.2 =
      outs ++ genMsgs id c (l.map Prod.snd) := by
  induction l generalizing c buf outs with
  | nil => simp [genMsgs]
  | cons p ps ih =>
      simp only [List.foldl_cons, resendStep, update_msg_id, List.map_cons, genMsgs]
      obtain ⟨h1, h2⟩ := ih (c + 1) (bufInsert buf (c + 1) ⟨p.2.node, p.2.message⟩)
        (outs ++ [⟨id, p.2.node, .Broadcast (c + 1) p.2.message⟩])
      constructor
      · rw [h1]; simp; omega
      · rw [h2]; simp

/-- The `ResendUnAcked` loop, buffer component. -/
theorem resend_foldl_buf (id : String) (l : List (Nat × UnAckedMessage))
    (c : Nat) (buf : List (Nat × UnAckedMessage)) (outs : List Message)
    (h : ∀ p ∈ buf, p.1 ≤ c) :
    (l.foldl (resendStep id) (c, buf, outs)).2.1 =
      buf ++ genEntries c (l.map Prod.snd) := by
  induction l generalizing c buf outs with
  | nil => simp [genEntries]
  | cons p ps ih =>
      simp only [List.foldl_cons, resendStep, update_msg_id, List.map_cons, genEntries]
      rw [bufInsert_of_keys_le h (Nat.lt_succ_self c)]
      rw [ih (c + 1) _ _ (by
        intro q hq
        rcases List.mem_append.1 hq with h' | h'
        · exact Nat.le_succ_of_le (h q h')
        · have hq' : q = (c + 1, ⟨p.2.node, p.2.message⟩) := List.mem_singleton.1 h'
          simp [hq'])]
      simp [genEntries]

/-! ## Arm-by-arm characterisation of `handle_message` -/

/-- Duplicate delivery: the value is already in the Value Set, so the
`Broadcast` arm skips the flood loop, re-inserts the value (a no-op),
and emits only the acknowledgement. -/
theorem handle_broadcast_dup (s : BroadcastNode) (src dest : String) (mid v : Nat)
    (hv : v ∈ s.messages) :
    handle_message s ⟨src, dest, .Broadcast mid v⟩ =
      (⟨s.id, s.msg_id_counter + 1, s.messages, s.neighbors, s.message_buffer⟩,
       [⟨dest, src, .BroadcastOk (s.msg_id_counter + 1) mid⟩]) := by
  simp [handle_message, hv, update_msg_id, Finset.insert_eq_self.2 hv]

/-- First delivery: the value is new, so the `Broadcast` arm floods it to
every neighbor other than `src` and `dest`, then acknowledges. -/
theorem handle_broadcast_new_spec (s : BroadcastNode) (src dest : String) (mid v : Nat)
    (hv : v ∉ s.messages) :
    (handle_message s ⟨src, dest, .Broadcast mid v⟩).1.id = s.id ∧
    (handle_message s ⟨src, dest, .Broadcast mid v⟩).1.msg_id_counter =
      s.msg_id_counter + (s.neighbors.filter (fun n => n != src && n != dest)).length + 1 ∧
    (handle_message s ⟨src, dest, .Broadcast mid v⟩).1.messages = insert v s.messages ∧
    (handle_message s ⟨src, dest, .Broadcast mid v⟩).1.neighbors = s.neighbors ∧
    (handle_message s ⟨src, dest, .Broadcast mid v⟩).2 =
      genMsgs s.id s.msg_id_counter
        ((s.neighbors.filter (fun n => n != src && n != dest)).map (fun n => ⟨n, v⟩)) ++
      [⟨dest, src, .BroadcastOk
        (s.msg_id_counter + (s.neighbors.filter (fun n => n != src && n != dest)).length + 1)
        mid⟩] := by
  have hc := flood_foldl_counter_outs s.id v
    (s.neighbors.filter (fun n => n != src && n != dest))
    s.msg_id_counter s.message_buffer []
  simp only [handle_message, if_neg hv, update_msg_id]
  refine ⟨trivial, ?_, trivial, trivial, ?_⟩
  · simp [hc.1]
  · simp [hc.2, hc.1]

/-- First delivery, buffer component: when every existing key is at most
the counter, the flooded entries append behind the old ones. -/
theorem handle_broadcast_new_buf (s : BroadcastNode) (src dest : String) (mid v : Nat)
    (hv : v ∉ s.messages) (hk : ∀ p ∈ s.message_buffer, p.1 ≤ s.msg_id_counter) :
    (handle_message s ⟨src, dest, .Broadcast mid v⟩).1.message_buffer =
      s.message_buffer ++ genEntries s.msg_id_counter
        ((s.neighbors.filter (fun n => n != src && n != dest)).map (fun n => ⟨n, v⟩)) := by
  have hb := flood_foldl_buf s.id v
    (s.neighbors.filter (fun n => n != src && n != dest))
    s.msg_id_counter s.message_buffer [] hk
  simp only [handle_message, if_neg hv, update_msg_id]
  simpa using hb

/-- The `ResendUnAcked` arm rebuilds the buffer as a new generation and
emits one fresh gossip message per old entry. -/
theorem handle_resend_spec (s : BroadcastNode) (src dest : String) :
    handle_message s ⟨src, dest, .ResendUnAcked⟩ =
      (⟨s.id, s.msg_id_counter + s.message_buffer.length, s.messages, s.neighbors,
        genEntries s.msg_id_counter (s.message_buffer.map Prod.snd)⟩,
       genMsgs s.id s.msg_id_counter (s.message_buffer.map Prod.snd)) := by
  have hc := resend_foldl_counter_outs s.id s.message_buffer s.msg_id_counter [] []
  have hb := resend_foldl_buf s.id s.message_buffer s.msg_id_counter [] [] (by simp)
  simp only [handle_message]
  simp [hc.1, hc.2, hb]

/-- The `BroadcastOk` arm only removes the acknowledged entry. -/
theorem handle_broadcastOk_eq (s : BroadcastNode) (src dest : String) (mid irt : Nat) :
    handle_message s ⟨src, dest, .BroadcastOk mid irt⟩ =
      (⟨s.id, s.msg_id_counter, s.messages, s.neighbors,
        bufRemove s.message_buffer irt⟩, []) := rfl

/-- The `Read` arm replies with the Value Set and touches only the counter. -/
theorem handle_read_eq (s : BroadcastNode) (src dest : String) (mid : Nat) :
    handle_message s ⟨src, dest, .Read mid⟩ =
      (⟨s.id, s.msg_id_counter + 1, s.messages, s.neighbors, s.message_buffer⟩,
       [⟨dest, src, .ReadOk (s.msg_id_counter + 1) mid (s.messages.sort (· ≤ ·))⟩]) := rfl

/-- The `Topology` arm replaces the neighbor list and replies. -/
theorem handle_topology_eq (s : BroadcastNode) (src dest : String) (mid : Nat)
    (topo : List (String × List String)) :
    handle_message s ⟨src, dest, .Topology mid topo⟩ =
      (⟨s.id, s.msg_id_counter + 1, s.messages, (topoLookup topo s.id).getD [],
        s.message_buffer⟩,
       [⟨dest, src, .TopologyOk (s.msg_id_counter + 1) mid⟩]) := rfl

/-- The `ReadOk` arm is a no-op. -/
theorem handle_readOk_eq (s : BroadcastNode) (src dest : String) (mid irt : Nat)
    (ms : List Nat) :
    handle_message s ⟨src, dest, .ReadOk mid irt ms⟩ = (s, []) := rfl

/-- The `TopologyOk` arm is a no-op. -/
theorem handle_topologyOk_eq (s : BroadcastNode) (src dest : String) (mid irt : Nat) :
    handle_message s ⟨src, dest, .TopologyOk mid irt⟩ = (s, []) := rfl

/-- `handle_message` never changes the node's identity. -/
theorem handle_id (s : BroadcastNode) (m : Message) :
    (handle_message s m).1.id = s.id := by
  rcases m with ⟨src, dest, body⟩
  cases body with
  | Broadcast mid v =>
      by_cases hv : v ∈ s.messages
      · rw [handle_broadcast_dup s src dest mid v hv]
      · exact (handle_broadcast_new_spec s src dest mid v hv).1
  | _ => rfl

/-- Delivering the same already-seen value `k` more times just emits `k`
acknowledgements with consecutive fresh ids and leaves all state except
the counter unchanged. -/
theorem runOut_replicate_dup (src dest : String) (mid v : Nat) :
    ∀ (k : Nat) (s : BroadcastNode), v ∈ s.messages →
    runOut s (List.replicate k ⟨src, dest, .Broadcast mid v⟩) =
      (⟨s.id, s.msg_id_counter + k, s.messages, s.neighbors, s.message_buffer⟩,
       (List.range' (s.msg_id_counter + 1) k).map
         (fun i => ⟨dest, src, .BroadcastOk i mid⟩)) := by
  intro k
  induction k with
  | zero => intro s _; simp [runOut]
  | succ k ih =>
      intro s hv
      rw [List.replicate_succ]
      simp only [runOut]
      rw [handle_broadcast_dup s src dest mid v hv]
      rw [ih ⟨s.id, s.msg_id_counter + 1, s.messages, s.neighbors, s.message_buffer⟩ hv]
      simp [List.range'_succ]
      omega

/-! ## Reachability invariants -/

theorem Inv_init (id : String) : Inv (initNode id) := by
  constructor <;> simp [initNode, atMostOnePerPair]

theorem Inv_preserved (s : BroadcastNode) (m : Message) (hs : Inv s)
    (hg : goodTopo s.id m) : Inv (handle_message s m).1 := by
  rcases m with ⟨src, dest, body⟩
  cases body with
  | Broadcast mid v =>
      by_cases hv : v ∈ s.messages
      · rw [handle_broadcast_dup s src dest mid v hv]
        exact ⟨hs.nbrs_nodup, fun p hp => Nat.le_succ_of_le (hs.keys_le p hp),
          hs.keys_nodup, hs.vals_seen, hs.pairs_nodup⟩
      · obtain ⟨hid, hcnt, hmsgs, hnbrs, _⟩ :=
          handle_broadcast_new_spec s src dest mid v hv
        have hbuf := handle_broadcast_new_buf s src dest mid v hv hs.keys_le
        constructor
        · rw [hnbrs]; exact hs.nbrs_nodup
        · rw [hbuf, hcnt]
          intro p hp
          rcases List.mem_append.1 hp with h | h
          · have := hs.keys_le p h; omega
          · obtain ⟨_, h2, _⟩ := mem_genEntries h
            simp only [List.length_map] at h2
            omega
        · rw [hbuf, List.map_append, genEntries_map_fst]
          rw [List.nodup_append]
          refine ⟨hs.keys_nodup, List.nodup_range' _ _, ?_⟩
          intro k hk hk'
          obtain ⟨p, hp, rfl⟩ := List.mem_map.1 hk
          have h1 := hs.keys_le p hp
          have h2 := (List.mem_range'_1.1 hk').1
          omega
        · rw [hbuf, hmsgs]
          intro p hp
          rcases List.mem_append.1 hp with h | h
          · exact Finset.mem_insert_of_mem (hs.vals_seen p h)
          · obtain ⟨_, _, h3⟩ := mem_genEntries h
            obtain ⟨n, _, hn⟩ := List.mem_map.1 h3
            rw [← hn]
            exact Finset.mem_insert_self v s.messages
        · rw [hbuf]
          unfold atMostOnePerPair
          rw [List.map_append, genEntries_map_snd, List.nodup_append]
          refine ⟨hs.pairs_nodup, ?_, ?_⟩
          · refine List.Nodup.map ?_ (List.Nodup.filter _ hs.nbrs_nodup)
            intro a b h
            exact congrArg UnAckedMessage.node h
          · intro u hu hu'
            obtain ⟨p, hp, rfl⟩ := List.mem_map.1 hu
            obtain ⟨n, _, hn⟩ := List.mem_map.1 hu'
            have : p.2.message ∈ s.messages := hs.vals_seen p hp
            rw [← hn] at this
            exact hv this
  | BroadcastOk mid irt =>
      rw [handle_broadcastOk_eq]
      have hsub : List.Sublist (bufRemove s.message_buffer irt) s.message_buffer :=
        List.filter_sublist _
      exact ⟨hs.nbrs_nodup,
        fun p hp => hs.keys_le p (hsub.mem hp),
        hs.keys_nodup.sublist (hsub.map Prod.fst),
        fun p hp => hs.vals_seen p (hsub.mem hp),
        hs.pairs_nodup.sublist (hsub.map Prod.snd)⟩
  | Read mid =>
      rw [handle_read_eq]
      exact ⟨hs.nbrs_nodup, fun p hp => Nat.le_succ_of_le (hs.keys_le p hp),
        hs.keys_nodup, hs.vals_seen, hs.pairs_nodup⟩
  | ReadOk mid irt ms => rw [handle_readOk_eq]; exact hs
  | Topology mid topo =>
      rw [handle_topology_eq]
      exact ⟨hg, fun p hp => Nat.le_succ_of_le (hs.keys_le p hp),
        hs.keys_nodup, hs.vals_seen, hs.pairs_nodup⟩
  | TopologyOk mid irt => rw [handle_topologyOk_eq]; exact hs
  | ResendUnAcked =>
      rw [handle_resend_spec]
      constructor
      · exact hs.nbrs_nodup
      · intro p hp
        obtain ⟨_, h2, _⟩ := mem_genEntries hp
        simp only [List.length_map] at h2
        exact h2
      · rw [genEntries_map_fst]
        exact List.nodup_range' _ _
      · intro p hp
        have h3 := (mem_genEntries hp).2.2
        obtain ⟨q, hq, hq2⟩ := List.mem_map.1 h3
        rw [← hq2]
        exact hs.vals_seen q hq
      · unfold atMostOnePerPair
        rw [genEntries_map_snd]
        exact hs.pairs_nodup

/-- The node's identity is stable across any run. -/
theorem run_id (ms : List Message) : ∀ s : BroadcastNode, (run s ms).id = s.id := by
  induction ms with
  | nil => intro s; rfl
  | cons m ms ih =>
      intro s
      rw [run, ih, handle_id]

/-- The invariant holds all along any run whose `Topology` messages
assign duplicate-free neighbor lists. -/
theorem Inv_run (ms : List Message) : ∀ s : BroadcastNode, Inv s →
    (∀ m ∈ ms, goodTopo s.id m) → Inv (run s ms) := by
  induction ms with
  | nil => intro s hs _; exact hs
  | cons m ms ih =>
      intro s hs hg
      rw [run]
      refine ih _ (Inv_preserved s m hs (hg m (List.mem_cons_self _ _))) ?_
      intro m' hm'
      rw [handle_id]
      exact hg m' (List.mem_cons_of_mem _ hm')

/-! ## Claim theorems -/

/-- C1: delivering the same `Broadcast` carrying a not-yet-seen value
`v` to the node `N ≥ 1` times adds `v` to the Value Set exactly once,
leaves the Retry Buffer exactly as the first delivery left it (repeat
deliveries add no entries), emits exactly `N` `BroadcastOk`
acknowledgements — every one replying to the delivery's `msg_id` — and
emits gossip only on the first delivery: everything after the first
delivery's output is an acknowledgement. -/
theorem C1_dedup_idempotence (s : BroadcastNode) (src dest : String) (mid v N : Nat)
    (hv : v ∉ s.messages) (hN : 1 ≤ N) :
    (runOut s (List.replicate N ⟨src, dest, .Broadcast mid v⟩)).1.messages =
      insert v s.messages ∧
    (runOut s (List.replicate N ⟨src, dest, .Broadcast mid v⟩)).1.message_buffer =
      (handle_message s ⟨src, dest, .Broadcast mid v⟩).1.message_buffer ∧
    ((runOut s (List.replicate N ⟨src, dest, .Broadcast mid v⟩)).2.countP
        (fun o => decide (isBroadcastOk o.body))) = N ∧
    (∀ o ∈ (runOut s (List.replicate N ⟨src, dest, .Broadcast mid v⟩)).2,
      isBroadcastOk o.body → inReplyTo o.body = some mid) ∧
    ∃ rest, (runOut s (List.replicate N ⟨src, dest, .Broadcast mid v⟩)).2 =
        (handle_message s ⟨src, dest, .Broadcast mid v⟩).2 ++ rest ∧
      rest.length = N - 1 ∧ ∀ o ∈ rest, isBroadcastOk o.body := by
  obtain ⟨k, rfl⟩ : ∃ k, N = k + 1 := ⟨N - 1, by omega⟩
  obtain ⟨hid, hcnt, hmsgs, hnbrs, houts⟩ := handle_broadcast_new_spec s src dest mid v hv
  rw [List.replicate_succ]
  simp only [runOut]
  have hv1 : v ∈ (handle_message s ⟨src, dest, .Broadcast mid v⟩).1.messages := by
    rw [hmsgs]; exact Finset.mem_insert_self v s.messages
  rw [runOut_replicate_dup src dest mid v k _ hv1]
  refine ⟨hmsgs, rfl, ?_, ?_, ?_⟩
  · rw [List.countP_append]
    have hacks : (((List.range'
        ((handle_message s ⟨src, dest, .Broadcast mid v⟩).1.msg_id_counter + 1) k).map
          (fun i => (⟨dest, src, .BroadcastOk i mid⟩ : Message))).countP
            (fun o => decide (isBroadcastOk o.body))) = k := by
      rw [List.countP_map]
      simp [Function.comp_def, isBroadcastOk]
    have hfirst : ((handle_message s ⟨src, dest, .Broadcast mid v⟩).2.countP
        (fun o => decide (isBroadcastOk o.body))) = 1 := by
      rw [houts, List.countP_append]
      have hflood : ((genMsgs s.id s.msg_id_counter
          ((s.neighbors.filter (fun n => n != src && n != dest)).map
            (fun n => ⟨n, v⟩))).countP (fun o => decide (isBroadcastOk o.body))) = 0 := by
        rw [List.countP_eq_zero]
        intro o ho
        obtain ⟨_, _, _, _, rfl⟩ := mem_genMsgs ho
        simp [isBroadcastOk]
      rw [hflood]
      simp [isBroadcastOk]
    rw [hacks, hfirst]
    omega
  · intro o ho hok
    rcases List.mem_append.1 ho with h | h
    · rw [houts] at h
      rcases List.mem_append.1 h with h' | h'
      · obtain ⟨_, _, _, _, rfl⟩ := mem_genMsgs h'
        simp [isBroadcastOk] at hok
      · rw [List.mem_singleton.1 h']
        rfl
    · obtain ⟨i, _, rfl⟩ := List.mem_map.1 h
      rfl
  · refine ⟨_, rfl, ?_, ?_⟩
    · simp
    · intro o ho
      obtain ⟨i, _, rfl⟩ := List.mem_map.1 ho
      trivial

/-- C2: for every inbound `Broadcast` message, no emitted gossip message
is addressed to the inbound message's `src` or to its `dest` (the node's
own receiving identity), and on a first delivery the emitted flood
destinations are exactly the neighbor list minus those two names, in
order. -/
theorem C2_no_bounce (s : BroadcastNode) (src dest : String) (mid v : Nat) :
    (∀ o ∈ (handle_message s ⟨src, dest, .Broadcast mid v⟩).2,
        isGossip o.body → o.dest ≠ src ∧ o.dest ≠ dest) ∧
    (v ∉ s.messages →
      ((handle_message s ⟨src, dest, .Broadcast mid v⟩).2.filterMap gossipDest) =
        s.neighbors.filter (fun n => n != src && n != dest)) := by
  by_cases hv : v ∈ s.messages
  · rw [handle_broadcast_dup s src dest mid v hv]
    refine ⟨?_, fun h => absurd hv h⟩
    intro o ho hg
    rw [List.mem_singleton.1 ho] at hg
    simp [isGossip] at hg
  · obtain ⟨_, _, _, _, houts⟩ := handle_broadcast_new_spec s src dest mid v hv
    rw [houts]
    constructor
    · intro o ho hg
      rcases List.mem_append.1 ho with h | h
      · obtain ⟨k, u, hu, _, rfl⟩ := mem_genMsgs h
        simp only [List.mem_map] at hu
        obtain ⟨n, hn, rfl⟩ := hu
        have := List.of_mem_filter hn
        simp only [Bool.and_eq_true, bne_iff_ne, ne_eq] at this
        exact this
      · rw [List.mem_singleton.1 h] at hg
        simp [isGossip] at hg
    · intro _
      rw [List.filterMap_append]
      have h2 : (([⟨dest, src, .BroadcastOk
          (s.msg_id_counter + (s.neighbors.filter fun n => n != src && n != dest).length + 1)
          mid⟩] : List Message).filterMap gossipDest) = [] := rfl
      rw [h2, List.append_nil]
      have h1 : ∀ (c : Nat) (l : List String),
          ((genMsgs s.id c (l.map (fun n => ⟨n, v⟩))).filterMap gossipDest) = l := by
        intro c l
        induction l generalizing c with
        | nil => rfl
        | cons n ns ih =>
            simp only [List.map_cons, genMsgs, List.filterMap_cons, gossipDest]
            rw [ih (c + 1)]
      exact h1 _ _

/-- Entrywise correspondence between the items an emission loop
processes, the buffer entries it records, and the messages it emits. -/
theorem genEntries_zip_genMsgs_forall₂ (id : String) :
    ∀ (us : List UnAckedMessage) (c : Nat),
    List.Forall₂ (fun (u : UnAckedMessage) (q : (Nat × UnAckedMessage) × Message) =>
        q.1.2 = u ∧ q.2 = ⟨id, u.node, .Broadcast q.1.1 u.message⟩)
      us ((genEntries c us).zip (genMsgs id c us)) := by
  intro us
  induction us with
  | nil => intro c; exact List.Forall₂.nil
  | cons u us ih =>
      intro c
      exact List.Forall₂.cons ⟨rfl, rfl⟩ (ih (c + 1))

/-- C3: a retry tick emits exactly one fresh gossip message per buffered
entry — to that entry's neighbor, carrying that entry's value, tagged
with a fresh id and recorded under that id — and atomically replaces the
buffer with this new generation: same number of entries, the same
sequence of (neighbor, value) payloads, pairwise-distinct new keys all
strictly above the old counter, and (given that the old keys are at most
the counter, as in every reachable state) none of the stale keys
remain. -/
theorem C3_retry_regeneration (s : BroadcastNode) (src dest : String)
    (hk : ∀ p ∈ s.message_buffer, p.1 ≤ s.msg_id_counter) :
    (handle_message s ⟨src, dest, .ResendUnAcked⟩).2.length =
      s.message_buffer.length ∧
    (handle_message s ⟨src, dest, .ResendUnAcked⟩).1.message_buffer.length =
      s.message_buffer.length ∧
    (handle_message s ⟨src, dest, .ResendUnAcked⟩).1.message_buffer.map Prod.snd =
      s.message_buffer.map Prod.snd ∧
    ((handle_message s ⟨src, dest, .ResendUnAcked⟩).1.message_buffer.map
      Prod.fst).Nodup ∧
    (∀ k ∈ (handle_message s ⟨src, dest, .ResendUnAcked⟩).1.message_buffer.map
      Prod.fst, s.msg_id_counter < k) ∧
    (∀ p ∈ s.message_buffer,
      p.1 ∉ (handle_message s ⟨src, dest, .ResendUnAcked⟩).1.message_buffer.map
        Prod.fst) ∧
    List.Forall₂ (fun (p : Nat × UnAckedMessage) (q : (Nat × UnAckedMessage) × Message) =>
        q.1.2 = p.2 ∧ q.2 = ⟨s.id, p.2.node, .Broadcast q.1.1 p.2.message⟩)
      s.message_buffer
      ((handle_message s ⟨src, dest, .ResendUnAcked⟩).1.message_buffer.zip
        (handle_message s ⟨src, dest, .ResendUnAcked⟩).2) := by
  rw [handle_resend_spec]
  have hfresh : ∀ k ∈ (genEntries s.msg_id_counter
      (s.message_buffer.map Prod.snd)).map Prod.fst, s.msg_id_counter < k := by
    intro k hkmem
    obtain ⟨p, hp, rfl⟩ := List.mem_map.1 hkmem
    exact (mem_genEntries hp).1
  refine ⟨?_, ?_, genEntries_map_snd _ _, ?_, hfresh, ?_, ?_⟩
  · simp [genMsgs_length]
  · simp [genEntries_length]
  · rw [genEntries_map_fst]
    exact List.nodup_range' _ _
  · intro p hp hmem
    exact absurd (hk p hp) (Nat.not_le.2 (hfresh p.1 hmem))
  · exact (List.forall₂_map_left_iff).1
      (genEntries_zip_genMsgs_forall₂ s.id (s.message_buffer.map Prod.snd)
        s.msg_id_counter)

/-- C4: every arm of the handler advances the Message Identifier Counter
by exactly the number of messages it emits, and the emitted messages are
stamped with the consecutive fresh ids `counter+1, …, counter+k` in
emission order — so the ids a node assigns over a run are strictly
increasing and never reused. -/
theorem C4_counter_monotone (s : BroadcastNode) (m : Message) :
    (handle_message s m).1.msg_id_counter =
      s.msg_id_counter + (handle_message s m).2.length ∧
    (handle_message s m).2.map (fun o => msgIdOf o.body) =
      (List.range' (s.msg_id_counter + 1) (handle_message s m).2.length).map some := by
  rcases m with ⟨src, dest, body⟩
  cases body with
  | Broadcast mid v =>
      by_cases hv : v ∈ s.messages
      · rw [handle_broadcast_dup s src dest mid v hv]
        simp [msgIdOf]
      · obtain ⟨_, hcnt, _, _, houts⟩ := handle_broadcast_new_spec s src dest mid v hv
        rw [hcnt, houts]
        constructor
        · simp only [List.length_append, List.length_singleton, genMsgs_length,
            List.length_map]
          omega
        · rw [List.map_append, genMsgs_map_msgId]
          simp only [List.length_append, List.length_map, genMsgs_length,
            List.length_singleton]
          rw [List.range'_concat, List.map_append]
          congr 1
          simp only [List.map_cons, List.map_nil, msgIdOf, List.cons.injEq,
            Option.some.injEq, and_true]
          omega
  | BroadcastOk mid irt => rw [handle_broadcastOk_eq]; simp
  | Read mid => rw [handle_read_eq]; simp [msgIdOf]
  | ReadOk mid irt ms => rw [handle_readOk_eq]; simp
  | Topology mid topo => rw [handle_topology_eq]; simp [msgIdOf]
  | TopologyOk mid irt => rw [handle_topologyOk_eq]; simp
  | ResendUnAcked =>
      rw [handle_resend_spec]
      simp [genMsgs_length, genMsgs_map_msgId]

/-- C6: the `Read` arm emits exactly one `ReadOk` whose `messages` field,
viewed as a set, equals the Value Set, and mutates no protocol state
(Value Set, neighbor list and Retry Buffer are all untouched; only the
Message Identifier Counter advances, by one, for the reply it emits). -/
theorem C6_read_snapshot (s : BroadcastNode) (src dest : String) (mid : Nat) :
    (handle_message s ⟨src, dest, .Read mid⟩).1.messages = s.messages ∧
    (handle_message s ⟨src, dest, .Read mid⟩).1.neighbors = s.neighbors ∧
    (handle_message s ⟨src, dest, .Read mid⟩).1.message_buffer = s.message_buffer ∧
    (handle_message s ⟨src, dest, .Read mid⟩).1.id = s.id ∧
    (handle_message s ⟨src, dest, .Read mid⟩).1.msg_id_counter = s.msg_id_counter + 1 ∧
    ∃ ms : List Nat,
      (handle_message s ⟨src, dest, .Read mid⟩).2 =
        [⟨dest, src, .ReadOk (s.msg_id_counter + 1) mid ms⟩] ∧
      ms.toFinset = s.messages := by
  rw [handle_read_eq]
  exact ⟨rfl, rfl, rfl, rfl, rfl, _, rfl, Finset.sort_toFinset _ _⟩

/-- C7: the `Topology` arm replaces the neighbor list with the map's
entry for this node (empty when the node is absent — no failure), emits
exactly one `TopologyOk`, and a second assignment overwrites the first
rather than merging with it. -/
theorem C7_topology_replace (s : BroadcastNode) (srcA destA : String) (midA : Nat)
    (topoA : List (String × List String)) (srcB destB : String) (midB : Nat)
    (topoB : List (String × List String)) :
    (handle_message s ⟨srcA, destA, .Topology midA topoA⟩).1.neighbors =
      (topoLookup topoA s.id).getD [] ∧
    (topoLookup topoA s.id = none →
      (handle_message s ⟨srcA, destA, .Topology midA topoA⟩).1.neighbors = []) ∧
    (handle_message s ⟨srcA, destA, .Topology midA topoA⟩).1.id = s.id ∧
    (handle_message s ⟨srcA, destA, .Topology midA topoA⟩).1.messages = s.messages ∧
    (handle_message s ⟨srcA, destA, .Topology midA topoA⟩).1.message_buffer =
      s.message_buffer ∧
    (handle_message s ⟨srcA, destA, .Topology midA topoA⟩).2 =
      [⟨destA, srcA, .TopologyOk (s.msg_id_counter + 1) midA⟩] ∧
    (handle_message (handle_message s ⟨srcA, destA, .Topology midA topoA⟩).1
        ⟨srcB, destB, .Topology midB topoB⟩).1.neighbors =
      (topoLookup topoB s.id).getD [] := by
  rw [handle_topology_eq]
  exact ⟨rfl, fun h => by simp [h], rfl, rfl, rfl, rfl, by rw [handle_topology_eq]⟩

/-- C8: a `BroadcastOk` with correlation id `irt` removes the buffer
entry keyed `irt` when present, is silently ignored when absent, emits
nothing, and leaves the Value Set, neighbor list, counter and all other
buffer entries unchanged. -/
theorem C8_ack_removal (s : BroadcastNode) (src dest : String) (mid irt : Nat) :
    (handle_message s ⟨src, dest, .BroadcastOk mid irt⟩).2 = [] ∧
    (handle_message s ⟨src, dest, .BroadcastOk mid irt⟩).1.messages = s.messages ∧
    (handle_message s ⟨src, dest, .BroadcastOk mid irt⟩).1.neighbors = s.neighbors ∧
    (handle_message s ⟨src, dest, .BroadcastOk mid irt⟩).1.msg_id_counter =
      s.msg_id_counter ∧
    (handle_message s ⟨src, dest, .BroadcastOk mid irt⟩).1.id = s.id ∧
    (∀ p : Nat × UnAckedMessage,
      p ∈ (handle_message s ⟨src, dest, .BroadcastOk mid irt⟩).1.message_buffer ↔
        p ∈ s.message_buffer ∧ p.1 ≠ irt) ∧
    ((∀ p ∈ s.message_buffer, p.1 ≠ irt) →
      (handle_message s ⟨src, dest, .BroadcastOk mid irt⟩).1.message_buffer =
        s.message_buffer) := by
  rw [handle_broadcastOk_eq]
  refine ⟨rfl, rfl, rfl, rfl, rfl, ?_, ?_⟩
  · intro p
    simp [bufRemove, List.mem_filter]
  · intro h
    apply List.filter_eq_self.2
    intro p hp
    simpa using h p hp

/-- C10: every gossip message the node originates (first flood or
resend) carries `src` equal to the node's configured identity, while the
request/response replies (`BroadcastOk`, `ReadOk`, `TopologyOk`) adopt
the inbound message's `dest` as their `src`. -/
theorem C10_gossip_src_identity (s : BroadcastNode) (m : Message) :
    (∀ o ∈ (handle_message s m).2, isGossip o.body → o.src = s.id) ∧
    (∀ o ∈ (handle_message s m).2, isReply o.body → o.src = m.dest) := by
  rcases m with ⟨src, dest, body⟩
  cases body with
  | Broadcast mid v =>
      by_cases hv : v ∈ s.messages
      · rw [handle_broadcast_dup s src dest mid v hv]
        constructor
        · intro o ho hg
          rw [List.mem_singleton.1 ho] at hg
          simp [isGossip] at hg
        · intro o ho _
          rw [List.mem_singleton.1 ho]
      · obtain ⟨_, _, _, _, houts⟩ := handle_broadcast_new_spec s src dest mid v hv
        rw [houts]
        constructor
        · intro o ho hg
          rcases List.mem_append.1 ho with h | h
          · obtain ⟨k, u, _, _, rfl⟩ := mem_genMsgs h
            rfl
          · rw [List.mem_singleton.1 h] at hg
            simp [isGossip] at hg
        · intro o ho hr
          rcases List.mem_append.1 ho with h | h
          · obtain ⟨k, u, _, _, rfl⟩ := mem_genMsgs h
            simp [isReply] at hr
          · rw [List.mem_singleton.1 h]
  | BroadcastOk mid irt => rw [handle_broadcastOk_eq]; simp
  | Read mid =>
      rw [handle_read_eq]
      constructor
      · intro o ho hg
        rw [List.mem_singleton.1 ho] at hg
        simp [isGossip] at hg
      · intro o ho _
        rw [List.mem_singleton.1 ho]
  | ReadOk mid irt ms => rw [handle_readOk_eq]; simp
  | Topology mid topo =>
      rw [handle_topology_eq]
      constructor
      · intro o ho hg
        rw [List.mem_singleton.1 ho] at hg
        simp [isGossip] at hg
      · intro o ho _
        rw [List.mem_singleton.1 ho]
  | TopologyOk mid irt => rw [handle_topologyOk_eq]; simp
  | ResendUnAcked =>
      rw [handle_resend_spec]
      constructor
      · intro o ho _
        obtain ⟨k, u, _, _, rfl⟩ := mem_genMsgs ho
        rfl
      · intro o ho hr
        obtain ⟨k, u, _, _, rfl⟩ := mem_genMsgs ho
        simp [isReply] at hr

/-- C5, counterexample to the claim as stated: a `Topology` message may
assign a neighbor list with a duplicate entry (`["B", "B"]`), and the
first delivery of a fresh value then floods once per list element,
inserting two Retry Buffer entries with the same (neighbor, value) pair
`("B", 5)`. -/
theorem C5_counterexample :
    ¬ atMostOnePerPair (run (initNode "A")
      [⟨"c0", "A", .Topology 1 [("A", ["B", "B"])]⟩,
       ⟨"c1", "A", .Broadcast 2 5⟩]).message_buffer := by
  decide

/-- C5, amended: in every state reachable from the initial empty state
by a sequence of messages whose `Topology` assignments give this node a
duplicate-free neighbor list, the Retry Buffer holds at most one entry
per (neighbor, value) pair. -/
theorem C5_at_most_one_per_pair (id : String) (ms : List Message)
    (h : ∀ m ∈ ms, goodTopo id m) :
    atMostOnePerPair (run (initNode id) ms).message_buffer :=
  (Inv_run ms (initNode id) (Inv_init id) h).pairs_nodup

/-- C9 fails on the code: in every execution satisfying `main`'s causal
constraints, the receive loop never terminates — so after normal
transport closure the terminate signal is never sent and the retry
thread is never joined; the process hangs instead of shutting the timer
down before exit. -/
theorem C9_no_clean_shutdown (t : ShutdownTrace) (h : MainShutdown t) :
    t.mainLoopExit = none := by
  cases heq : t.mainLoopExit with
  | none => rfl
  | some te =>
      obtain ⟨td, hd, hdle⟩ := h.exit_requires_drop te heq
      rcases h.drop_requires_recv_or_exit td hd with ⟨tr, hr, hrle⟩ | ⟨te', he', hlt⟩
      · obtain ⟨ts, hsend, hsle⟩ := h.recv_requires_send tr hr
        obtain ⟨te', he', hlt⟩ := h.send_after_exit ts hsend
        rw [heq] at he'
        have h2 : te = te' := Option.some.inj he'
        omega
      · rw [heq] at he'
        have h2 : te = te' := Option.some.inj he'
        omega

/-! ## Witnesses: the claim theorems applied at explicit inputs -/

/-- C1 at a concrete input: value `5` (not yet seen by `nodeA`)
delivered three times. -/
theorem C1_dedup_idempotence_witness :
    (5 ∉ nodeA.messages) ∧ 1 ≤ 3 ∧
    ((runOut nodeA (List.replicate 3 ⟨"c1", "A", .Broadcast 9 5⟩)).1.messages =
      insert 5 nodeA.messages ∧
    (runOut nodeA (List.replicate 3 ⟨"c1", "A", .Broadcast 9 5⟩)).1.message_buffer =
      (handle_message nodeA ⟨"c1", "A", .Broadcast 9 5⟩).1.message_buffer ∧
    ((runOut nodeA (List.replicate 3 ⟨"c1", "A", .Broadcast 9 5⟩)).2.countP
        (fun o => decide (isBroadcastOk o.body))) = 3 ∧
    (∀ o ∈ (runOut nodeA (List.replicate 3 ⟨"c1", "A", .Broadcast 9 5⟩)).2,
      isBroadcastOk o.body → inReplyTo o.body = some 9) ∧
    ∃ rest, (runOut nodeA (List.replicate 3 ⟨"c1", "A", .Broadcast 9 5⟩)).2 =
        (handle_message nodeA ⟨"c1", "A", .Broadcast 9 5⟩).2 ++ rest ∧
      rest.length = 3 - 1 ∧ ∀ o ∈ rest, isBroadcastOk o.body) :=
  ⟨by decide, by decide,
   C1_dedup_idempotence nodeA "c1" "A" 9 5 3 (by decide) (by decide)⟩

/-- C2 at a concrete input. -/
theorem C2_no_bounce_witness :
    (∀ o ∈ (handle_message nodeA ⟨"c1", "A", .Broadcast 9 5⟩).2,
        isGossip o.body → o.dest ≠ "c1" ∧ o.dest ≠ "A") ∧
    (5 ∉ nodeA.messages →
      ((handle_message nodeA ⟨"c1", "A", .Broadcast 9 5⟩).2.filterMap gossipDest) =
        nodeA.neighbors.filter (fun n => n != "c1" && n != "A")) :=
  C2_no_bounce nodeA "c1" "A" 9 5

/-- C3 at a concrete input: one retry tick on `nodeA`, whose single
buffer key `4` is at most its counter `10`. -/
theorem C3_retry_regeneration_witness :
    (∀ p ∈ nodeA.message_buffer, p.1 ≤ nodeA.msg_id_counter) ∧
    ((handle_message nodeA ⟨"A", "A", .ResendUnAcked⟩).2.length =
      nodeA.message_buffer.length ∧
    (handle_message nodeA ⟨"A", "A", .ResendUnAcked⟩).1.message_buffer.length =
      nodeA.message_buffer.length ∧
    (handle_message nodeA ⟨"A", "A", .ResendUnAcked⟩).1.message_buffer.map Prod.snd =
      nodeA.message_buffer.map Prod.snd ∧
    ((handle_message nodeA ⟨"A", "A", .ResendUnAcked⟩).1.message_buffer.map
      Prod.fst).Nodup ∧
    (∀ k ∈ (handle_message nodeA ⟨"A", "A", .ResendUnAcked⟩).1.message_buffer.map
      Prod.fst, nodeA.msg_id_counter < k) ∧
    (∀ p ∈ nodeA.message_buffer,
      p.1 ∉ (handle_message nodeA ⟨"A", "A", .ResendUnAcked⟩).1.message_buffer.map
        Prod.fst) ∧
    List.Forall₂ (fun (p : Nat × UnAckedMessage) (q : (Nat × UnAckedMessage) × Message) =>
        q.1.2 = p.2 ∧ q.2 = ⟨nodeA.id, p.2.node, .Broadcast q.1.1 p.2.message⟩)
      nodeA.message_buffer
      ((handle_message nodeA ⟨"A", "A", .ResendUnAcked⟩).1.message_buffer.zip
        (handle_message nodeA ⟨"A", "A", .ResendUnAcked⟩).2)) :=
  ⟨by decide, C3_retry_regeneration nodeA "A" "A" (by decide)⟩

/-- C5 (amended) at a concrete input: a run whose topology assignment is
duplicate-free. -/
theorem C5_at_most_one_per_pair_witness :
    (∀ m ∈ ([⟨"c0", "A", .Topology 1 [("A", ["B", "C"])]⟩,
             ⟨"c1", "A", .Broadcast 2 5⟩] : List Message), goodTopo "A" m) ∧
    atMostOnePerPair (run (initNode "A")
      [⟨"c0", "A", .Topology 1 [("A", ["B", "C"])]⟩,
       ⟨"c1", "A", .Broadcast 2 5⟩]).message_buffer :=
  ⟨by decide, C5_at_most_one_per_pair "A"
    [⟨"c0", "A", .Topology 1 [("A", ["B", "C"])]⟩,
     ⟨"c1", "A", .Broadcast 2 5⟩] (by decide)⟩

/-- C7 at a concrete input: assign topology `A ↦ ["B"]`, then topology
`A ↦ ["C"]`. -/
theorem C7_topology_replace_witness :
    (handle_message nodeA ⟨"c0", "A", .Topology 1 [("A", ["B"])]⟩).1.neighbors =
      (topoLookup [("A", ["B"])] nodeA.id).getD [] ∧
    (topoLookup [("A", ["B"])] nodeA.id = none →
      (handle_message nodeA ⟨"c0", "A", .Topology 1 [("A", ["B"])]⟩).1.neighbors = []) ∧
    (handle_message nodeA ⟨"c0", "A", .Topology 1 [("A", ["B"])]⟩).1.id = nodeA.id ∧
    (handle_message nodeA ⟨"c0", "A", .Topology 1 [("A", ["B"])]⟩).1.messages =
      nodeA.messages ∧
    (handle_message nodeA ⟨"c0", "A", .Topology 1 [("A", ["B"])]⟩).1.message_buffer =
      nodeA.message_buffer ∧
    (handle_message nodeA ⟨"c0", "A", .Topology 1 [("A", ["B"])]⟩).2 =
      [⟨"A", "c0", .TopologyOk (nodeA.msg_id_counter + 1) 1⟩] ∧
    (handle_message (handle_message nodeA ⟨"c0", "A", .Topology 1 [("A", ["B"])]⟩).1
        ⟨"c2", "A", .Topology 2 [("A", ["C"])]⟩).1.neighbors =
      (topoLookup [("A", ["C"])] nodeA.id).getD [] :=
  C7_topology_replace nodeA "c0" "A" 1 [("A", ["B"])] "c2" "A" 2 [("A", ["C"])]

/-- C8 at a concrete input: an acknowledgement for the buffered id `4`. -/
theorem C8_ack_removal_witness :
    (handle_message nodeA ⟨"B", "A", .BroadcastOk 3 4⟩).2 = [] ∧
    (handle_message nodeA ⟨"B", "A", .BroadcastOk 3 4⟩).1.messages = nodeA.messages ∧
    (handle_message nodeA ⟨"B", "A", .BroadcastOk 3 4⟩).1.neighbors = nodeA.neighbors ∧
    (handle_message nodeA ⟨"B", "A", .BroadcastOk 3 4⟩).1.msg_id_counter =
      nodeA.msg_id_counter ∧
    (handle_message nodeA ⟨"B", "A", .BroadcastOk 3 4⟩).1.id = nodeA.id ∧
    (∀ p : Nat × UnAckedMessage,
      p ∈ (handle_message nodeA ⟨"B", "A", .BroadcastOk 3 4⟩).1.message_buffer ↔
        p ∈ nodeA.message_buffer ∧ p.1 ≠ 4) ∧
    ((∀ p ∈ nodeA.message_buffer, p.1 ≠ 4) →
      (handle_message nodeA ⟨"B", "A", .BroadcastOk 3 4⟩).1.message_buffer =
        nodeA.message_buffer) :=
  C8_ack_removal nodeA "B" "A" 3 4

/-- C9 at a concrete input: the only traces satisfying `main`'s shutdown
constraints are those in which the receive loop never ends. -/
theorem C9_no_clean_shutdown_witness :
    MainShutdown ⟨none, none, none, none⟩ ∧
    (⟨none, none, none, none⟩ : ShutdownTrace).mainLoopExit = none := by
  have hms : MainShutdown ⟨none, none, none, none⟩ :=
    ⟨fun te h => (nomatch h), fun td h => (nomatch h),
     fun tr h => (nomatch h), fun ts h => (nomatch h)⟩
  exact ⟨hms, C9_no_clean_shutdown ⟨none, none, none, none⟩ hms⟩

/-- C10 at a concrete input. -/
theorem C10_gossip_src_identity_witness :
    (∀ o ∈ (handle_message nodeA ⟨"c1", "A", .Broadcast 9 5⟩).2,
        isGossip o.body → o.src = nodeA.id) ∧
    (∀ o ∈ (handle_message nodeA ⟨"c1", "A", .Broadcast 9 5⟩).2,
        isReply o.body → o.src = "A") :=
  C10_gossip_src_identity nodeA ⟨"c1", "A", .Broadcast 9 5⟩

end Vortex
